import Mathlib

/-!
Verification development for the status-page ingestion pipeline
(`event_handler.py`, `webhook_server.py`, `rss_poller.py`, `main.py`).

The Python code is shallowly embedded: dynamically-typed payload values
become the inductive type `Val`; operations that can raise in Python
(`.get` on a non-dict, iterating a non-iterable, `BeautifulSoup` on a
non-string) return `Except String _`; external libraries (dateutil,
hashlib md5, hmac/sha256, BeautifulSoup rendering) are abstract function
parameters, since their implementations are outside this repository.
-/

namespace StatusMonitor

/-- Dynamically-typed values as produced by parsing a JSON body or a feed
entry: the subset of Python values the pipeline manipulates. -/
inductive Val where
  | vnone : Val
  | vbool : Bool → Val
  | vint : Int → Val
  | vstr : String → Val
  | vlist : List Val → Val
  | vdict : List (String × Val) → Val
deriving Repr, Inhabited

mutual
/-- Structural equality test on values (Python `==` on JSON-like data). -/
def valBeq : Val → Val → Bool
  | .vnone, .vnone => true
  | .vbool a, .vbool b => a == b
  | .vint a, .vint b => a == b
  | .vstr a, .vstr b => a == b
  | .vlist xs, .vlist ys => valListBeq xs ys
  | .vdict xs, .vdict ys => valDictBeq xs ys
  | _, _ => false

/-- Equality test on lists of values. -/
def valListBeq : List Val → List Val → Bool
  | [], [] => true
  | x :: xs, y :: ys => valBeq x y && valListBeq xs ys
  | _, _ => false

/-- Equality test on dict bindings. -/
def valDictBeq : List (String × Val) → List (String × Val) → Bool
  | [], [] => true
  | (k, v) :: xs, (k', v') :: ys => k == k' && valBeq v v' && valDictBeq xs ys
  | _, _ => false
end

mutual
/-- Boolean value equality coincides with propositional equality. -/
theorem valBeq_iff : ∀ a b : Val, valBeq a b = true ↔ a = b
  | .vnone, b => by cases b <;> simp [valBeq]
  | .vbool a, b => by cases b <;> simp [valBeq]
  | .vint a, b => by cases b <;> simp [valBeq]
  | .vstr a, b => by cases b <;> simp [valBeq]
  | .vlist xs, b => by
    cases b <;> simp [valBeq]
    exact valListBeq_iff xs _
  | .vdict xs, b => by
    cases b <;> simp [valBeq]
    exact valDictBeq_iff xs _

/-- Boolean list equality coincides with propositional equality. -/
theorem valListBeq_iff : ∀ xs ys : List Val, valListBeq xs ys = true ↔ xs = ys
  | [], ys => by cases ys <;> simp [valListBeq]
  | x :: xs, ys => by
    cases ys with
    | nil => simp [valListBeq]
    | cons y ys =>
      simp [valListBeq, Bool.and_eq_true, valBeq_iff x y, valListBeq_iff xs ys]

/-- Boolean dict equality coincides with propositional equality. -/
theorem valDictBeq_iff :
    ∀ xs ys : List (String × Val), valDictBeq xs ys = true ↔ xs = ys
  | [], ys => by cases ys <;> simp [valDictBeq]
  | (k, v) :: xs, ys => by
    cases ys with
    | nil => simp [valDictBeq]
    | cons y ys =>
      obtain ⟨k', v'⟩ := y
      simp [valDictBeq, Bool.and_eq_true, valBeq_iff v v', valDictBeq_iff xs ys,
        and_assoc]
end

instance : DecidableEq Val := fun a b =>
  decidable_of_iff (valBeq a b = true) (valBeq_iff a b)

/-- First binding for a key in an association list, as Python dict lookup
(later duplicate keys shadow earlier ones in a Python literal, but the
pipeline never builds duplicate keys; first-match lookup is used). -/
def dictLookup : List (String × Val) → String → Option Val
  | [], _ => none
  | (k, v) :: rest, key => if k = key then some v else dictLookup rest key

/-- Python `d.get(key, default)`: raises `AttributeError` when the receiver
is not a dict. -/
def pyGet (v : Val) (key : String) (dflt : Val) : Except String Val :=
  match v with
  | .vdict kvs => .ok ((dictLookup kvs key).getD dflt)
  | _ => .error "AttributeError: object has no attribute get"

/-- Python `key in d` membership test on a dict (raises on non-dicts the
pipeline never reaches, so only the dict case is modelled where used). -/
def pyHasKey (kvs : List (String × Val)) (key : String) : Bool :=
  (dictLookup kvs key).isSome

/-- Python truthiness of a value. -/
def pyTruthy : Val → Bool
  | .vnone => false
  | .vbool b => b
  | .vint n => decide (n ≠ 0)
  | .vstr s => decide (s ≠ "")
  | .vlist xs => !xs.isEmpty
  | .vdict kvs => !kvs.isEmpty

/-- Whether a value is a Python dict (`isinstance(v, dict)`). -/
def isDict : Val → Bool
  | .vdict _ => true
  | _ => false

mutual
/-- Python `repr` of a value, approximated for the ASCII payloads the
pipeline sees (string escaping inside quotes is not modelled). -/
def pyRepr : Val → String
  | .vnone => "None"
  | .vbool true => "True"
  | .vbool false => "False"
  | .vint n => toString n
  | .vstr s => "'" ++ s ++ "'"
  | .vlist xs => "[" ++ String.intercalate ", " (pyReprList xs) ++ "]"
  | .vdict kvs => "\x7b" ++ String.intercalate ", " (pyReprDict kvs) ++ "\x7d"

/-- Representations of the elements of a list value. -/
def pyReprList : List Val → List String
  | [] => []
  | v :: vs => pyRepr v :: pyReprList vs

/-- Representations of the bindings of a dict value. -/
def pyReprDict : List (String × Val) → List String
  | [] => []
  | (k, v) :: kvs => ("'" ++ k ++ "': " ++ pyRepr v) :: pyReprDict kvs
end

/-- Python `str` of a value: the string itself for strings, `repr`
otherwise. -/
def pyStr : Val → String
  | .vstr s => s
  | v => pyRepr v

/-- Python iteration over a value: lists yield elements, strings yield
one-character strings, dicts yield their keys; other values raise. -/
def pyIter : Val → Except String (List Val)
  | .vlist xs => .ok xs
  | .vstr s => .ok (s.toList.map (fun c => .vstr (String.mk [c])))
  | .vdict kvs => .ok (kvs.map (fun kv => .vstr kv.1))
  | _ => .error "TypeError: object is not iterable"

/-- Effectful map over a list, propagating the first error (models a
Python list comprehension whose body can raise). -/
def mapExcept (f : α → Except String β) : List α → Except String (List β)
  | [] => .ok []
  | x :: xs => do
    let y ← f x
    let ys ← mapExcept f xs
    .ok (y :: ys)

/-- External collaborators of the normalizers, abstracted as functions:
`parseDate` is `dateutil.parser.parse` composed with `strftime` (`none` on
any exception), `nowIso` is `datetime.utcnow().isoformat()`, `nowTs` is
`EventHandler._get_timestamp()`, `md5hex` is `hashlib.md5(·).hexdigest()`,
`soupTags` yields the stripped text of each `<strong>`/`<b>` tag of an
HTML document in order, and `soupText` is
`BeautifulSoup(·).get_text(separator=' ', strip=True)`. -/
structure Env where
  parseDate : Val → Option String
  nowIso : String
  nowTs : String
  md5hex : String → String
  soupTags : String → List String
  soupText : String → String

/-- Result dict of `EventHandler._normalize_webhook_data`. -/
structure NormalizedWebhook where
  id : Val
  source : String
  source_type : String
  event_type : Val
  title : Val
  status : Val
  severity : Val
  description : Val
  components : List Val
  link : Val
  timestamp : String
deriving Repr, DecidableEq

/-- Line 39 of `event_handler.py`:
`incident.get('status', {}).get('label', 'Unknown') if
isinstance(incident.get('status'), dict) else
str(incident.get('status', 'Unknown'))`. -/
def statusOf (incident : Val) : Except String Val := do
  let s0 ← pyGet incident "status" .vnone
  if isDict s0 then do
    let s1 ← pyGet incident "status" (.vdict [])
    pyGet s1 "label" (.vstr "Unknown")
  else do
    let s1 ← pyGet incident "status" (.vstr "Unknown")
    .ok (.vstr (pyStr s1))

/-- Line 40 of `event_handler.py`:
`incident.get('severity', {}).get('label', '') if
isinstance(incident.get('severity'), dict) else ''`. -/
def severityOf (incident : Val) : Except String Val := do
  let s0 ← pyGet incident "severity" .vnone
  if isDict s0 then do
    let s1 ← pyGet incident "severity" (.vdict [])
    pyGet s1 "label" (.vstr "")
  else
    .ok (.vstr "")

/-- Line 38: `incident.get('name', incident.get('title', 'Unknown
Incident'))` (the inner default is evaluated first). -/
def titleOf (incident : Val) : Except String Val := do
  let t ← pyGet incident "title" (.vstr "Unknown Incident")
  pyGet incident "name" t

/-- Line 41: `incident.get('summary', incident.get('description', ''))`. -/
def descriptionOf (incident : Val) : Except String Val := do
  let d ← pyGet incident "description" (.vstr "")
  pyGet incident "summary" d

/-- Line 43: `incident.get('permalink', incident.get('url', ''))`. -/
def linkOf (incident : Val) : Except String Val := do
  let u ← pyGet incident "url" (.vstr "")
  pyGet incident "permalink" u

/-- Lines 47-51: when `'affected_components' in incident`, the list
comprehension `[comp.get('name', str(comp)) for comp in
incident['affected_components']]`, else the `[]` default of line 42. -/
def componentsOf (incident : Val) : Except String (List Val) :=
  match incident with
  | .vdict kvs =>
    match dictLookup kvs "affected_components" with
    | none => .ok []
    | some ac => do
      let xs ← pyIter ac
      mapExcept (fun comp => pyGet comp "name" (.vstr (pyStr comp))) xs
  | _ => .error "TypeError: argument is not a container"

/-- Lines 30-31 of `event_handler.py`: the incident record may nest under
`data.incident`, `data`, or be the payload itself. -/
def extractIncident (event_data : Val) : Except String Val := do
  let data ← pyGet event_data "data" event_data
  pyGet data "incident" data

/-- `EventHandler._normalize_webhook_data` (lines 28-61): any step that
would raise in Python yields `.error`, caught by the caller's
`except` (line 146). -/
def normalizeWebhookData (env : Env) (event_data : Val) (source_name : String) :
    Except String NormalizedWebhook := do
  let event_type ← pyGet event_data "event_type" (.vstr "")
  let incident ← extractIncident event_data
  let incId ← pyGet incident "id" (.vstr "")
  let title ← titleOf incident
  let status ← statusOf incident
  let severity ← severityOf incident
  let description ← descriptionOf incident
  let link ← linkOf incident
  let components ← componentsOf incident
  let edCreated ← pyGet event_data "created_at" .vnone
  let created_at ← pyGet incident "created_at" edCreated
  let timestamp :=
    if pyTruthy created_at then (env.parseDate created_at).getD env.nowIso
    else env.nowIso
  .ok {
    id := incId
    source := source_name
    source_type := "webhook"
    event_type := event_type
    title := title
    status := status
    severity := severity
    description := description
    components := components
    link := link
    timestamp := timestamp
  }

/-- Fixed status vocabulary of the first pattern on line 93 of
`event_handler.py`, in alternation order. -/
def vocabWords : List String :=
  ["operational", "degraded", "partial", "major", "maintenance", "outage",
   "incident", "investigating", "monitoring", "resolved"]

/-- Lower-case an ASCII character sequence (models `re.IGNORECASE`). -/
def lowerChars (cs : List Char) : List Char := cs.map Char.toLower

/-- First vocabulary word matching at the head of the text,
case-insensitively, in alternation order. -/
def vocabMatchAt (cs : List Char) : Option String :=
  vocabWords.find? (fun w => w.toList.isPrefixOf (lowerChars cs))

/-- Leftmost vocabulary match: `re.search` with the alternation pattern of
line 93 returns the original-text characters of the leftmost match, trying
alternatives in order at each position. -/
def vocabSearch : List Char → Option (List Char)
  | [] => none
  | c :: cs =>
    match vocabMatchAt (c :: cs) with
    | some w => some ((c :: cs).take w.length)
    | none => vocabSearch cs

/-- Regex word character `\w` (ASCII). -/
def isWordChar (c : Char) : Bool := c.isAlphanum || c == '_'

/-- Match of `status:\s*(\w+)` anchored at the head of the text
(case-insensitive); returns the captured `\w+` token. Backtracking into
`\s*` cannot help since `\s` and `\w` are disjoint. -/
def statusMatchAt (cs : List Char) : Option (List Char) :=
  if ("status:".toList).isPrefixOf (lowerChars cs) then
    let tok := ((cs.drop 7).dropWhile Char.isWhitespace).takeWhile isWordChar
    if tok.isEmpty then none else some tok
  else none

/-- Leftmost match of the second pattern of line 94. -/
def statusSearch : List Char → Option (List Char)
  | [] => none
  | c :: cs =>
    match statusMatchAt (c :: cs) with
    | some t => some t
    | none => statusSearch cs

/-- Python `str.title()` over ASCII: a letter is upper-cased when the
previous character is not a letter, lower-cased otherwise. -/
def pyTitleAux : Bool → List Char → List Char
  | _, [] => []
  | prevAlpha, c :: cs =>
    if c.isAlpha then
      (if prevAlpha then c.toLower else c.toUpper) :: pyTitleAux true cs
    else
      c :: pyTitleAux false cs

/-- Python `str.title()`. -/
def pyTitle (s : String) : String := String.mk (pyTitleAux false s.toList)

/-- Lines 92-101 of `event_handler.py` applied to the plain-text rendering
of the description: try the vocabulary pattern, then the `status:` pattern,
title-case the first match, else keep the `'Unknown'` default. -/
def inferStatus (text : String) : String :=
  match vocabSearch text.toList with
  | some m => pyTitle (String.mk m)
  | none =>
    match statusSearch text.toList with
    | some t => pyTitle (String.mk t)
    | none => "Unknown"

/-- Result dict of `EventHandler._normalize_rss_data`. -/
structure NormalizedRss where
  id : Val
  source : String
  source_type : String
  title : Val
  description : Val
  link : Val
  components : List String
  status : String
  timestamp : String
deriving Repr, DecidableEq

/-- `EventHandler._normalize_rss_data` (lines 63-112). -/
def normalizeRssData (env : Env) (entry : Val) (source_name : String) :
    Except String NormalizedRss := do
  let guidDefault ← pyGet entry "guid" (.vstr "")
  let rawId ← pyGet entry "id" guidDefault
  let incidentId ←
    if pyTruthy rawId then Except.ok rawId
    else do
      let t ← pyGet entry "title" (.vstr "")
      let p ← pyGet entry "published" (.vstr "")
      Except.ok (Val.vstr (env.md5hex (pyStr t ++ pyStr p)))
  let title ← pyGet entry "title" (.vstr "Unknown Incident")
  let summaryDefault ← pyGet entry "summary" (.vstr "")
  let description ← pyGet entry "description" summaryDefault
  let link ← pyGet entry "link" (.vstr "")
  let published ← pyGet entry "published" (.vstr "")
  let compStatus ←
    if pyTruthy description then
      match description with
      | .vstr html =>
        Except.ok
          (((env.soupTags html).filter
              (fun t => !t.isEmpty && !(t.toLower.startsWith "status"))),
            inferStatus (env.soupText html))
      | _ => .error "TypeError: BeautifulSoup expected a string"
    else Except.ok (([] : List String), "Unknown")
  let timestamp :=
    if pyTruthy published then (env.parseDate published).getD env.nowTs
    else env.nowTs
  .ok {
    id := incidentId
    source := source_name
    source_type := "rss"
    title := title
    description := description
    link := link
    components := compStatus.1
    status := compStatus.2
    timestamp := timestamp
  }

/-- Observable state of the coordinator (`EventHandler`): the dedup set
`seen_incidents`, the ordered ids of emitted events, and a count of
items absorbed by the `except` branches (observation of the error log). -/
structure PipelineState where
  seen : List Val
  emitted : List Val
  errors : Nat
deriving Repr, DecidableEq

/-- Fresh `EventHandler` state. -/
def initState : PipelineState := ⟨[], [], 0⟩

/-- `EventHandler.handle_webhook_event` (lines 132-147), run to
completion: normalize, drop when seen, else mark and emit; any raised
error is absorbed. -/
def handleWebhookEvent (env : Env) (st : PipelineState) (event_data : Val)
    (source_name : String) : PipelineState :=
  match normalizeWebhookData env event_data source_name with
  | .error _ => { st with errors := st.errors + 1 }
  | .ok inc =>
    if inc.id ∈ st.seen then st
    else { st with seen := inc.id :: st.seen, emitted := st.emitted ++ [inc.id] }

/-- `EventHandler.handle_rss_entry` (lines 149-163), run to completion. -/
def handleRssEntry (env : Env) (st : PipelineState) (entry : Val)
    (source_name : String) : PipelineState :=
  match normalizeRssData env entry source_name with
  | .error _ => { st with errors := st.errors + 1 }
  | .ok inc =>
    if inc.id ∈ st.seen then st
    else { st with seen := inc.id :: st.seen, emitted := st.emitted ++ [inc.id] }

/-- One inbound item: a push payload with its provider name, or a polled
feed entry with its feed name. -/
inductive Item where
  | push : Val → String → Item
  | poll : Val → String → Item

/-- Identity an item normalizes to, when normalization succeeds. -/
def itemId (env : Env) : Item → Except String Val
  | .push ed src => (normalizeWebhookData env ed src).map (·.id)
  | .poll e src => (normalizeRssData env e src).map (·.id)

/-- Sequential processing of one item by the coordinator. -/
def stepItem (env : Env) (st : PipelineState) : Item → PipelineState
  | .push ed src => handleWebhookEvent env st ed src
  | .poll e src => handleRssEntry env st e src

/-- Lookup in a string-keyed association map (a Python dict of strings). -/
def assocGet : List (String × String) → String → Option String
  | [], _ => none
  | (k, v) :: rest, key => if k = key then some v else assocGet rest key

/-- Python dict assignment `m[k] = v`: replace the binding or append it. -/
def assocSet : List (String × String) → String → String → List (String × String)
  | [], k, v => [(k, v)]
  | (k', v') :: rest, k, v =>
    if k' = k then (k, v) :: rest else (k', v') :: assocSet rest k v

/-- Revalidation state of `RSSPoller`: the `etags` and `last_modified`
dicts, keyed by feed URL. -/
structure PollerState where
  etags : List (String × String)
  last_modified : List (String × String)
deriving Repr, DecidableEq

/-- Outcome of the HTTP GET inside `fetch_feed`. A transport error can
strike at two distinct points, which the source's `try` block (lines
56-80) does not distinguish but whose state effects differ: before any
response arrives (`connectError`: `session.get` itself raises — the
timeout or connection failure), or after status and headers are in hand,
when `await response.text()` on line 72 raises (the `Except.error` case
of the body component). Both raises are caught by the `except` clauses
of lines 75-80. -/
inductive FetchOutcome where
  | response : Nat → Option String → Option String → Except String String →
      FetchOutcome
  | connectError : String → FetchOutcome
deriving Repr

/-- Conditional headers built by lines 48-54 of `rss_poller.py`. -/
def requestHeaders (st : PollerState) (url : String) : List (String × String) :=
  (match assocGet st.etags url with
    | some e => [("If-None-Match", e)]
    | none => []) ++
  (match assocGet st.last_modified url with
    | some l => [("If-Modified-Since", l)]
    | none => [])

/-- `RSSPoller.fetch_feed` (lines 46-80): result value and updated
revalidation state, given the outcome of the underlying GET. On a 200 the
etag and last-modified stores are mutated (lines 66-70) before the body
is read on line 72, so a body-read failure is caught by the `except`
clauses and yields `(none, false)` with those mutations already
applied. -/
def fetchFeed (st : PollerState) (url : String) (outcome : FetchOutcome) :
    (Option String × Bool) × PollerState :=
  match outcome with
  | .connectError _ => ((none, false), st)
  | .response status et lm body =>
    if status = 304 then ((none, false), st)
    else if status ≠ 200 then ((none, false), st)
    else
      let st1 := match et with
        | some e => { st with etags := assocSet st.etags url e }
        | none => st
      let st2 := match lm with
        | some l => { st1 with last_modified := assocSet st1.last_modified url l }
        | none => st1
      match body with
      | .ok content => ((some content, true), st2)
      | .error _ => ((none, false), st2)

/-- Digits of a Python integer literal after the first digit: single
underscores are allowed between digits only. -/
def parseDigitGroup : Nat → List Char → Option Nat
  | acc, [] => some acc
  | acc, c :: cs =>
    if c.isDigit then parseDigitGroup (acc * 10 + (c.toNat - 48)) cs
    else if c == '_' then
      match cs with
      | d :: ds =>
        if d.isDigit then parseDigitGroup (acc * 10 + (d.toNat - 48)) ds else none
      | [] => none
    else none

/-- Nonempty digit sequence with optional grouping underscores. -/
def parsePyNat : List Char → Option Nat
  | [] => none
  | c :: cs => if c.isDigit then parseDigitGroup (c.toNat - 48) cs else none

/-- Python `int(s)` on a decimal string: surrounding whitespace stripped,
optional sign, digits; `none` models the raised `ValueError`. -/
def parsePyInt (s : String) : Option Int :=
  let cs := ((s.toList.dropWhile Char.isWhitespace).reverse.dropWhile
      Char.isWhitespace).reverse
  match cs with
  | '+' :: rest => (parsePyNat rest).map Int.ofNat
  | '-' :: rest => (parsePyNat rest).map (fun n => -(n : Int))
  | rest => (parsePyNat rest).map Int.ofNat

/-- `verify_svix_signature` (webhook_server.py lines 19-46). `hmacHex`
abstracts `hmac.new(secret, msg, sha256).hexdigest()`; `current_time` is
`int(time.time())`; the payload is its decoded UTF-8 text. -/
def verify_svix_signature (hmacHex : String → String → String)
    (current_time : Int) (payload : String) (webhook_id : String)
    (webhook_timestamp : String) (webhook_signature : String)
    (secret : String) : Bool :=
  match parsePyInt webhook_timestamp with
  | none => false
  | some timestamp =>
    if (current_time - timestamp).natAbs > 300 then false
    else
      let signed_content := webhook_id ++ "." ++ webhook_timestamp ++ "." ++ payload
      let expected_sig := hmacHex secret signed_content
      let actual_sig :=
        if webhook_signature.toList.contains ',' then
          (webhook_signature.splitOn ",").getD 1 ""
        else webhook_signature
      expected_sig == actual_sig

/-- `verify_hmac_signature` (webhook_server.py lines 49-59). -/
def verify_hmac_signature (hmacHex : String → String → String)
    (payload : String) (signature : String) (secret : String) : Bool :=
  let expected_sig := hmacHex secret payload
  let sig := if signature.startsWith "sha256=" then signature.drop 7 else signature
  expected_sig == sig

/-- Inbound HTTP request to a webhook endpoint: its headers and the parsed
JSON body (`none` when `request.json()` raises). -/
structure Request where
  headers : List (String × String)
  jsonBody : Option Val

/-- Header lookup (`request.headers.get`). -/
def headerGet (req : Request) (name : String) : Option String :=
  assocGet req.headers name

/-- What an endpoint returns to the sender and hands to the background
queue: the HTTP status of the acknowledgment and the
`(provider, event_data)` tasks enqueued for `process_webhook_async`. -/
structure EndpointResult where
  statusCode : Nat
  tasks : List (String × Val)
deriving Repr, DecidableEq

/-- `receive_incident_io_webhook` (webhook_server.py lines 80-101): the
`webhook-id` / `webhook-timestamp` / `webhook-signature` headers are read
into local variables that are never used again — no call to
`verify_svix_signature` occurs — so after JSON parsing the payload is
unconditionally enqueued and acknowledged with 200; unparseable JSON is
rejected with 400 before the core. -/
def receive_incident_io_webhook (req : Request) : EndpointResult :=
  let _webhook_id := headerGet req "webhook-id"
  let _webhook_timestamp := headerGet req "webhook-timestamp"
  let _webhook_signature := headerGet req "webhook-signature"
  match req.jsonBody with
  | none => { statusCode := 400, tasks := [] }
  | some event_data => { statusCode := 200, tasks := [("incident.io", event_data)] }

/-- `receive_generic_webhook` (webhook_server.py lines 104-123): likewise
reads `X-Signature` / `X-Hub-Signature-256` without ever calling
`verify_hmac_signature`. -/
def receive_generic_webhook (provider_name : String) (req : Request) :
    EndpointResult :=
  let _x_signature :=
    (headerGet req "X-Signature").orElse (fun _ => headerGet req "X-Hub-Signature-256")
  match req.jsonBody with
  | none => { statusCode := 400, tasks := [] }
  | some event_data => { statusCode := 200, tasks := [(provider_name, event_data)] }

/-- Processing of the enqueued background tasks, in order
(`process_webhook_async` → `handle_webhook_event`). -/
def runTasks (env : Env) (st : PipelineState) (tasks : List (String × Val)) :
    PipelineState :=
  tasks.foldl (fun s t => handleWebhookEvent env s t.2 t.1) st

/-- One in-flight `handle_webhook_event` coroutine in the interleaving
model, reduced to its dedup-relevant steps. `pc = 0`: about to run the
`is_seen` critical section; `pc = 1`: between the two locked sections,
holding the check result; `pc = 2`: finished. -/
structure ConcTask where
  tid : String
  pc : Nat
  checkResult : Bool
deriving Repr, DecidableEq

/-- Shared state of the interleaving model: the dedup set, the counts of
emissions and duplicate drops, and the task pool. -/
structure ConcState where
  seen : List String
  emissions : Nat
  drops : Nat
  tasks : List ConcTask
deriving Repr, DecidableEq

/-- One scheduler step running task `i`: `is_seen` (first locked section)
when `pc = 0`; then either the duplicate drop or `mark_seen` (second
locked section) plus the emission when `pc = 1`. Each locked section is
atomic, but the scheduler may interleave other tasks between the two. -/
def stepAt (cs : ConcState) (i : Nat) : ConcState :=
  match cs.tasks[i]? with
  | none => cs
  | some t =>
    if t.pc = 0 then
      let t1 := { t with pc := 1, checkResult := decide (t.tid ∈ cs.seen) }
      { cs with tasks := cs.tasks.set i t1 }
    else if t.pc = 1 then
      let t2 := { t with pc := 2 }
      if t.checkResult then
        { cs with drops := cs.drops + 1, tasks := cs.tasks.set i t2 }
      else
        { cs with seen := t.tid :: cs.seen
                  emissions := cs.emissions + 1
                  tasks := cs.tasks.set i t2 }
    else cs

/-- Run a schedule (a list of task indices) from a state. -/
def runSchedule (cs : ConcState) : List Nat → ConcState
  | [] => cs
  | i :: rest => runSchedule (stepAt cs i) rest

/-- Initial pool: `n` concurrent ingestions of the same identity `x`. -/
def initConc (n : Nat) (x : String) : ConcState :=
  { seen := [], emissions := 0, drops := 0,
    tasks := List.replicate n { tid := x, pc := 0, checkResult := false } }

/-- Schedule that runs both steps of tasks `j, j+1, ..., j+k-1` in turn,
each task to completion before the next starts. -/
def serialFrom (j : Nat) : Nat → List Nat
  | 0 => []
  | k + 1 => j :: j :: serialFrom (j + 1) k

/-- Fully serial schedule for `n` tasks. -/
def serialSchedule (n : Nat) : List Nat := serialFrom 0 n

/-- Concrete environment used to evaluate the pipeline at witness inputs:
any definite choice of the external collaborators is admissible since the
verified properties hold for every environment. -/
def sampleEnv : Env where
  parseDate := fun _ => none
  nowIso := "2025-01-01T00:00:00"
  nowTs := "2025-01-01 00:00:00"
  md5hex := fun s => "md5:" ++ s
  soupTags := fun _ => []
  soupText := fun s => s

/-- The end-to-end example payload of the specification:
incident `abc` named `API errors`, investigating, affecting `API`. -/
def samplePayload : Val :=
  .vdict [("data", .vdict [("incident", .vdict
    [("id", .vstr "abc"),
     ("name", .vstr "API errors"),
     ("status", .vdict [("label", .vstr "Investigating")]),
     ("affected_components", .vlist [.vdict [("name", .vstr "API")]])])])]

/-- An `affected_components` value (when present) that push normalization
survives: iterable, with every element a record (`comp.get` would raise
on anything else). -/
def wellShapedComponents (ikvs : List (String × Val)) : Bool :=
  match dictLookup ikvs "affected_components" with
  | none => true
  | some ac =>
    match pyIter ac with
    | .error _ => false
    | .ok xs => xs.all isDict

/-- Container shape under which push normalization cannot raise: the
payload is a record, its `data`/`incident` nesting resolves to records,
and the affected components (if any) are well shaped. -/
def wellShapedWebhook (ed : Val) : Bool :=
  match ed with
  | .vdict kvs0 =>
    match (dictLookup kvs0 "data").getD ed with
    | .vdict dkvs =>
      match (dictLookup dkvs "incident").getD (.vdict dkvs) with
      | .vdict ikvs => wellShapedComponents ikvs
      | _ => false
    | _ => false
  | _ => false

/-- Whether a value is a Python str. -/
def isStr : Val → Bool
  | .vstr _ => true
  | _ => false

/-- Container shape under which poll normalization cannot raise: the entry
is a record and its description (or summary fallback), when truthy, is a
string (`BeautifulSoup` would raise on a truthy non-string). -/
def wellShapedRss (entry : Val) : Bool :=
  match entry with
  | .vdict kvs =>
    let desc := (dictLookup kvs "description").getD
      ((dictLookup kvs "summary").getD (.vstr ""))
    !pyTruthy desc || isStr desc
  | _ => false

/-- Some vocabulary word of the first status pattern occurs (position by
position, case-insensitively) in the text. -/
def vocabOccursB (s : String) : Bool :=
  (List.range (s.toList.length + 1)).any (fun i =>
    vocabWords.any (fun w => w.toList.isPrefixOf (lowerChars (s.toList.drop i))))

/-- The second status pattern `status:\s*(\w+)` matches somewhere in the
text. -/
def statusOccursB (s : String) : Bool :=
  (List.range (s.toList.length + 1)).any (fun i =>
    (statusMatchAt (s.toList.drop i)).isSome)

end StatusMonitor

namespace StatusMonitor

/-- Peeling one Except bind off a successful computation. -/
theorem exceptBind_ok {α β : Type} {x : Except String α}
    {f : α → Except String β} {b : β} (h : (x >>= f) = Except.ok b) :
    ∃ a, x = Except.ok a ∧ f a = Except.ok b := by
  cases x with
  | error e => simp [Bind.bind, Except.bind] at h
  | ok a => exact ⟨a, rfl, by simpa [Bind.bind, Except.bind] using h⟩

/-- Peeling a successful Except map. -/
theorem exceptMap_ok {α β : Type} {x : Except String α} {f : α → β} {b : β}
    (h : x.map f = Except.ok b) : ∃ a, x = Except.ok a ∧ f a = b := by
  cases x with
  | error e => simp [Except.map] at h
  | ok a => exact ⟨a, rfl, by simpa [Except.map] using h⟩

/-- Reading back the key just written into an association map. -/
theorem assocGet_assocSet_self (m : List (String × String)) (k v : String) :
    assocGet (assocSet m k v) k = some v := by
  induction m with
  | nil => simp [assocSet, assocGet]
  | cons hd tl ih =>
    obtain ⟨k', v'⟩ := hd
    by_cases hk : k' = k
    · simp [assocSet, hk, assocGet]
    · simp [assocSet, hk, assocGet, ih]

/-- Writing one key leaves every other key's binding unchanged. -/
theorem assocGet_assocSet_ne (m : List (String × String)) (k v u : String)
    (h : u ≠ k) : assocGet (assocSet m k v) u = assocGet m u := by
  have hku : ¬ (k = u) := fun hh => h hh.symm
  induction m with
  | nil => simp [assocSet, assocGet, hku]
  | cons hd tl ih =>
    obtain ⟨k', v'⟩ := hd
    by_cases hk : k' = k
    · subst hk
      simp [assocSet, assocGet, hku]
    · simp [assocSet, hk, assocGet, ih]

/-- Claim C4 counterexample: on a 200 response carrying an `ETag` header
whose body read then fails, `fetch_feed` returns `(none, false)` — a
transport error — with the stored etag already overwritten, because the
mutations of lines 66-70 precede the body read of line 72 inside the
`try` block; so a transport error does not always leave the stored
revalidation state unchanged, and a 200 status does not always return
`(body, true)`. -/
theorem claim_C4_counterexample :
    fetchFeed ⟨[], []⟩ "u" (.response 200 (some "E1") none (.error "timeout"))
        = ((none, false), ⟨[("u", "E1")], []⟩) ∧
      (⟨[("u", "E1")], []⟩ : PollerState) ≠ (⟨[], []⟩ : PollerState) :=
  ⟨rfl, by decide⟩

/-- Claim C4 as amended: `fetch_feed` returns `(none, false)` leaving the
stored etag and last-modified unchanged on a 304, on any other non-200
status, and on a transport error striking before a response arrives; on a
200 it first updates the stored etag and last-modified for that URL
(independently, each exactly when the corresponding header is present,
other URLs untouched), then returns `(body, true)` when the body read
succeeds and `(none, false)` — with those updates already applied — when
the body read raises. -/
theorem claim_C4_amended :
    (∀ st url msg, fetchFeed st url (.connectError msg) = ((none, false), st)) ∧
    (∀ st url et lm body,
      fetchFeed st url (.response 304 et lm body) = ((none, false), st)) ∧
    (∀ st url status et lm body, status ≠ 200 →
      fetchFeed st url (.response status et lm body) = ((none, false), st)) ∧
    (∀ st url et lm body,
      (∀ content, body = .ok content →
        (fetchFeed st url (.response 200 et lm body)).1 = (some content, true)) ∧
      (∀ e, body = .error e →
        (fetchFeed st url (.response 200 et lm body)).1 = (none, false)) ∧
      (∀ e, et = some e →
        assocGet (fetchFeed st url (.response 200 et lm body)).2.etags url = some e) ∧
      (et = none →
        (fetchFeed st url (.response 200 et lm body)).2.etags = st.etags) ∧
      (∀ l, lm = some l →
        assocGet (fetchFeed st url (.response 200 et lm body)).2.last_modified url
          = some l) ∧
      (lm = none →
        (fetchFeed st url (.response 200 et lm body)).2.last_modified
          = st.last_modified) ∧
      (∀ u, u ≠ url →
        assocGet (fetchFeed st url (.response 200 et lm body)).2.etags u
            = assocGet st.etags u ∧
          assocGet (fetchFeed st url (.response 200 et lm body)).2.last_modified u
            = assocGet st.last_modified u)) := by
  refine ⟨fun st url msg => rfl, fun st url et lm body => rfl, ?_, ?_⟩
  · intro st url status et lm body h
    by_cases h304 : status = 304
    · simp [fetchFeed, h304]
    · simp [fetchFeed, h304, h]
  · intro st url et lm body
    cases et <;> cases lm <;> cases body <;>
      refine ⟨?_, ?_, ?_, ?_, ?_, ?_, ?_⟩ <;>
      simp [fetchFeed, assocGet_assocSet_self] <;>
      intro u hu <;>
      simp [fetchFeed, assocGet_assocSet_ne _ _ _ _ hu]

/-- Witness for the amended C4 at concrete inputs: a 500 leaves a cached
etag intact; a 200 whose body read fails has already stored the new etag;
a 200 whose body read succeeds returns the body with `true`. -/
theorem claim_C4_witness :
    fetchFeed ⟨[("u", "E0")], []⟩ "u" (.response 500 (some "E1") none (.ok "b"))
        = ((none, false), ⟨[("u", "E0")], []⟩) ∧
      assocGet (fetchFeed ⟨[("u", "E0")], []⟩ "u"
          (.response 200 (some "E1") none (.error "boom"))).2.etags "u"
        = some "E1" ∧
      (fetchFeed ⟨[("u", "E0")], []⟩ "u"
          (.response 200 (some "E1") none (.ok "b"))).1 = (some "b", true) :=
  ⟨claim_C4_amended.2.2.1 ⟨[("u", "E0")], []⟩ "u" 500 (some "E1") none (.ok "b")
      (by decide),
    (claim_C4_amended.2.2.2 ⟨[("u", "E0")], []⟩ "u" (some "E1") none
      (.error "boom")).2.2.1 "E1" rfl,
    (claim_C4_amended.2.2.2 ⟨[("u", "E0")], []⟩ "u" (some "E1") none
      (.ok "b")).1 "b" rfl⟩

/-- Claim C5: the timestamped-HMAC verifier accepts exactly the payloads
whose designated signature token equals the HMAC of
`id.timestamp.payload` under the secret and whose claimed timestamp is
within 300 seconds of the current time; it rejects stale timestamps,
unparseable timestamps, and any differing signature token, whether the
signature is presented as a single token or as a comma-separated list
whose element at index 1 is the verification target. -/
theorem claim_C5 :
    (∀ (hm : String → String → String) ct p wid tsStr sig sec ts,
      parsePyInt tsStr = some ts → (ct - ts).natAbs ≤ 300 →
      sig.toList.contains ',' = false →
      sig = hm sec (wid ++ "." ++ tsStr ++ "." ++ p) →
      verify_svix_signature hm ct p wid tsStr sig sec = true) ∧
    (∀ (hm : String → String → String) ct p wid tsStr sig sec ts,
      parsePyInt tsStr = some ts → (ct - ts).natAbs ≤ 300 →
      sig.toList.contains ',' = true →
      (sig.splitOn ",").getD 1 "" = hm sec (wid ++ "." ++ tsStr ++ "." ++ p) →
      verify_svix_signature hm ct p wid tsStr sig sec = true) ∧
    (∀ (hm : String → String → String) ct p wid tsStr sig sec ts,
      parsePyInt tsStr = some ts → (ct - ts).natAbs > 300 →
      verify_svix_signature hm ct p wid tsStr sig sec = false) ∧
    (∀ (hm : String → String → String) ct p wid tsStr sig sec,
      parsePyInt tsStr = none →
      verify_svix_signature hm ct p wid tsStr sig sec = false) ∧
    (∀ (hm : String → String → String) ct p wid tsStr sig sec,
      sig.toList.contains ',' = false →
      sig ≠ hm sec (wid ++ "." ++ tsStr ++ "." ++ p) →
      verify_svix_signature hm ct p wid tsStr sig sec = false) ∧
    (∀ (hm : String → String → String) ct p wid tsStr sig sec,
      sig.toList.contains ',' = true →
      (sig.splitOn ",").getD 1 "" ≠ hm sec (wid ++ "." ++ tsStr ++ "." ++ p) →
      verify_svix_signature hm ct p wid tsStr sig sec = false) := by
  refine ⟨?_, ?_, ?_, ?_, ?_, ?_⟩
  · intro hm ct p wid tsStr sig sec ts hp hf hnc hs
    have hfresh : ¬ ((ct - ts).natAbs > 300) := by omega
    subst hs
    have hnc' : ¬ (',' ∈ (hm sec (wid ++ "." ++ tsStr ++ "." ++ p)).data) := by
      simpa using hnc
    simp [verify_svix_signature, hp, hfresh, hnc']
  · intro hm ct p wid tsStr sig sec ts hp hf hc hs
    have hfresh : ¬ ((ct - ts).natAbs > 300) := by omega
    have hc' : ',' ∈ sig.data := by simpa using hc
    rw [List.getD_eq_getElem?_getD] at hs
    simp [verify_svix_signature, hp, hfresh, hc', hs]
  · intro hm ct p wid tsStr sig sec ts hp hstale
    simp [verify_svix_signature, hp, hstale]
  · intro hm ct p wid tsStr sig sec hp
    simp [verify_svix_signature, hp]
  · intro hm ct p wid tsStr sig sec hnc hne
    have hnc' : ¬ (',' ∈ sig.data) := by simpa using hnc
    cases hp : parsePyInt tsStr with
    | none => simp [verify_svix_signature, hp]
    | some ts =>
      by_cases hstale : (ct - ts).natAbs > 300
      · simp [verify_svix_signature, hp, hstale]
      · simp [verify_svix_signature, hp, hstale, hnc']
        exact fun hh => hne hh.symm
  · intro hm ct p wid tsStr sig sec hc hne
    have hc' : ',' ∈ sig.data := by simpa using hc
    rw [List.getD_eq_getElem?_getD] at hne
    cases hp : parsePyInt tsStr with
    | none => simp [verify_svix_signature, hp]
    | some ts =>
      by_cases hstale : (ct - ts).natAbs > 300
      · simp [verify_svix_signature, hp, hstale]
      · simp [verify_svix_signature, hp, hstale, hc']
        exact fun hh => hne hh.symm

/-- Witness for C5 at concrete inputs: a fresh correctly signed payload
verifies, a 301-second-old one is rejected, and an unparseable timestamp
is rejected, with the HMAC instantiated to a definite function. -/
theorem claim_C5_witness :
    verify_svix_signature (fun sec msg => "MAC." ++ sec ++ "." ++ msg)
        1000 "PL" "id1" "700" "MAC.k.id1.700.PL" "k" = true ∧
      verify_svix_signature (fun sec msg => "MAC." ++ sec ++ "." ++ msg)
        1000 "PL" "id1" "699" "MAC.k.id1.699.PL" "k" = false ∧
      verify_svix_signature (fun sec msg => "MAC." ++ sec ++ "." ++ msg)
        1000 "PL" "id1" "soon" "MAC.k.id1.soon.PL" "k" = false :=
  ⟨claim_C5.1 _ 1000 "PL" "id1" "700" _ "k" 700 (by decide) (by decide)
      (by decide) rfl,
    claim_C5.2.2.1 _ 1000 "PL" "id1" "699" _ "k" 699 (by decide) (by decide),
    claim_C5.2.2.2.1 _ 1000 "PL" "id1" "soon" _ "k" (by decide)⟩

/-- Inversion of a successful push normalization: the incident record was
extracted, and the `id` and `severity` fields of the result came from the
corresponding field expressions over that record. -/
theorem normalizeWebhookData_inv {env : Env} {ed : Val} {src : String}
    {n : NormalizedWebhook} (h : normalizeWebhookData env ed src = .ok n) :
    ∃ inc, extractIncident ed = .ok inc ∧
      pyGet inc "id" (.vstr "") = .ok n.id ∧
      severityOf inc = .ok n.severity := by
  unfold normalizeWebhookData at h
  obtain ⟨et, het, h⟩ := exceptBind_ok h
  obtain ⟨inc, hinc, h⟩ := exceptBind_ok h
  obtain ⟨iid, hiid, h⟩ := exceptBind_ok h
  obtain ⟨ttl, httl, h⟩ := exceptBind_ok h
  obtain ⟨stt, hstt, h⟩ := exceptBind_ok h
  obtain ⟨sev, hsev, h⟩ := exceptBind_ok h
  obtain ⟨dsc, hdsc, h⟩ := exceptBind_ok h
  obtain ⟨lnk, hlnk, h⟩ := exceptBind_ok h
  obtain ⟨cmp, hcmp, h⟩ := exceptBind_ok h
  obtain ⟨edc, hedc, h⟩ := exceptBind_ok h
  obtain ⟨cat, hcat, h⟩ := exceptBind_ok h
  injection h with h
  subst h
  exact ⟨inc, hinc, hiid, hsev⟩

/-- Claim C2 counterexample: the empty push payload derives no identity,
yet normalization succeeds with `id = ""` and the coordinator marks and
emits the event without reporting any error — contradicting the claim
that such an item is dropped with an error and that no empty-id event is
ever constructed, marked or emitted. -/
theorem claim_C2_counterexample :
    (normalizeWebhookData sampleEnv (.vdict []) "P").map (·.id)
        = .ok (.vstr "") ∧
      handleWebhookEvent sampleEnv initState (.vdict []) "P"
        = ⟨[.vstr ""], [.vstr ""], 0⟩ :=
  ⟨rfl, rfl⟩

/-- A successful push normalization of a payload whose incident record
has no `id` field yields the empty-string identity. -/
theorem normalizeWebhookData_noid (env : Env) (ed : Val) (src : String)
    (n : NormalizedWebhook) (kvs : List (String × Val))
    (hn : normalizeWebhookData env ed src = .ok n)
    (hinc : extractIncident ed = .ok (.vdict kvs))
    (hid : dictLookup kvs "id" = none) : n.id = .vstr "" := by
  obtain ⟨inc, hinc', hiid, _⟩ := normalizeWebhookData_inv hn
  rw [hinc] at hinc'
  injection hinc' with hinc'
  subst hinc'
  rw [pyGet, hid] at hiid
  injection hiid with hiid
  exact hiid.symm

/-- Claim C2 as amended: a push payload whose incident record has no `id`
field is normalized with the empty-string identity and processed like any
other event — no error is reported; it is emitted (and `""` marked) when
`""` is not yet in the dedup set, and silently dropped otherwise. -/
theorem claim_C2_amended (env : Env) (ed : Val) (src : String)
    (n : NormalizedWebhook) (kvs : List (String × Val))
    (hn : normalizeWebhookData env ed src = .ok n)
    (hinc : extractIncident ed = .ok (.vdict kvs))
    (hid : dictLookup kvs "id" = none) :
    n.id = .vstr "" ∧
      (∀ st, (.vstr "") ∈ st.seen → handleWebhookEvent env st ed src = st) ∧
      (∀ st, (.vstr "") ∉ st.seen → handleWebhookEvent env st ed src =
        { st with seen := .vstr "" :: st.seen
                  emitted := st.emitted ++ [.vstr ""] }) := by
  have hidEq := normalizeWebhookData_noid env ed src n kvs hn hinc hid
  refine ⟨hidEq, ?_, ?_⟩
  · intro st hmem
    simp [handleWebhookEvent, hn, hidEq, hmem]
  · intro st hmem
    simp [handleWebhookEvent, hn, hidEq, hmem]

/-- Witness for the amended C2: with `""` already seen, a second id-less
payload (any provider, any content) is dropped; from a fresh state it is
emitted. -/
theorem claim_C2_witness :
    handleWebhookEvent sampleEnv ⟨[.vstr ""], [.vstr ""], 0⟩
        (.vdict [("x", .vint 1)]) "P" = ⟨[.vstr ""], [.vstr ""], 0⟩ ∧
      handleWebhookEvent sampleEnv initState (.vdict [("x", .vint 1)]) "P"
        = ⟨[.vstr ""], [.vstr ""], 0⟩ :=
  ⟨(claim_C2_amended sampleEnv (.vdict [("x", .vint 1)]) "P" _ _ rfl rfl rfl).2.1
      ⟨[.vstr ""], [.vstr ""], 0⟩ (by simp),
    (claim_C2_amended sampleEnv (.vdict [("x", .vint 1)]) "P" _ _ rfl rfl rfl).2.2
      initState (by simp [initState])⟩

/-- Claim C6 counterexample: a severity presented as the plain string
`"major"` is not unwrapped to `"major"`; the normalizer yields the empty
string for it, so a present non-record severity is flattened to the same
empty default as an absent one. -/
theorem claim_C6_counterexample :
    (normalizeWebhookData sampleEnv
        (.vdict [("id", .vstr "i1"), ("severity", .vstr "major")]) "P").map
        (·.severity) = .ok (.vstr "") ∧
      Val.vstr "" ≠ Val.vstr "major" :=
  ⟨rfl, by decide⟩

/-- Claim C6 as amended: a severity appearing as a structured record is
unwrapped to its `label` field (empty default when the label is absent);
every other shape — a plain string included — and an absent severity all
yield the empty string; and a successful push normalization's severity is
exactly this function of the extracted incident record. -/
theorem claim_C6_amended :
    (∀ kvs svs, dictLookup kvs "severity" = some (.vdict svs) →
      severityOf (.vdict kvs) = .ok ((dictLookup svs "label").getD (.vstr ""))) ∧
    (∀ kvs v, dictLookup kvs "severity" = some v → isDict v = false →
      severityOf (.vdict kvs) = .ok (.vstr "")) ∧
    (∀ kvs, dictLookup kvs "severity" = none →
      severityOf (.vdict kvs) = .ok (.vstr "")) ∧
    (∀ (env : Env) ed src n, normalizeWebhookData env ed src = .ok n →
      ∃ inc, extractIncident ed = .ok inc ∧ severityOf inc = .ok n.severity) := by
  refine ⟨?_, ?_, ?_, ?_⟩
  · intro kvs svs h
    simp [severityOf, pyGet, h, isDict, Bind.bind, Except.bind]
  · intro kvs v h hd
    simp [severityOf, pyGet, h, hd, Bind.bind, Except.bind]
  · intro kvs h
    simp [severityOf, pyGet, h, isDict, Bind.bind, Except.bind]
  · intro env ed src n h
    obtain ⟨inc, hinc, _, hsev⟩ := normalizeWebhookData_inv h
    exact ⟨inc, hinc, hsev⟩

/-- Witness for the amended C6: a record severity unwraps to its label and
a string severity collapses to the empty string. -/
theorem claim_C6_witness :
    severityOf (.vdict [("severity", .vdict [("label", .vstr "Sev1")])])
        = .ok (.vstr "Sev1") ∧
      severityOf (.vdict [("severity", .vstr "high")]) = .ok (.vstr "") :=
  ⟨claim_C6_amended.1 [("severity", .vdict [("label", .vstr "Sev1")])]
      [("label", .vstr "Sev1")] rfl,
    claim_C6_amended.2.1 [("severity", .vstr "high")] (.vstr "high") rfl rfl⟩

/-- Claim C10: a push payload whose incident record lacks an `id` field
normalizes to the single identity `""`; the dedup set only ever grows; and
once a first id-less payload is emitted (marking `""`), every further
id-less push payload — any provider, any content — is dropped unchanged. -/
theorem claim_C10 :
    (∀ (env : Env) ed src n kvs, normalizeWebhookData env ed src = .ok n →
      extractIncident ed = .ok (.vdict kvs) → dictLookup kvs "id" = none →
      n.id = .vstr "") ∧
    (∀ (env : Env) st item, ∀ x ∈ st.seen, x ∈ (stepItem env st item).seen) ∧
    (∀ (env : Env) st ed1 src1 ed2 src2 n1 n2,
      normalizeWebhookData env ed1 src1 = .ok n1 → n1.id = .vstr "" →
      normalizeWebhookData env ed2 src2 = .ok n2 → n2.id = .vstr "" →
      (.vstr "") ∉ st.seen →
      (handleWebhookEvent env st ed1 src1).emitted = st.emitted ++ [.vstr ""] ∧
        handleWebhookEvent env (handleWebhookEvent env st ed1 src1) ed2 src2 =
          handleWebhookEvent env st ed1 src1) := by
  refine ⟨?_, ?_, ?_⟩
  · intro env ed src n kvs hn hinc hid
    exact normalizeWebhookData_noid env ed src n kvs hn hinc hid
  · intro env st item x hx
    cases item with
    | push ed src =>
      simp only [stepItem, handleWebhookEvent]
      cases normalizeWebhookData env ed src with
      | error e => exact hx
      | ok inc =>
        by_cases hmem : inc.id ∈ st.seen
        · simpa [hmem] using hx
        · simp only [hmem, if_false]
          exact List.mem_cons_of_mem _ hx
    | poll e src =>
      simp only [stepItem, handleRssEntry]
      cases normalizeRssData env e src with
      | error e => exact hx
      | ok inc =>
        by_cases hmem : inc.id ∈ st.seen
        · simpa [hmem] using hx
        · simp only [hmem, if_false]
          exact List.mem_cons_of_mem _ hx
  · intro env st ed1 src1 ed2 src2 n1 n2 hn1 hid1 hn2 hid2 hmem
    have hstep : handleWebhookEvent env st ed1 src1 =
        { st with seen := .vstr "" :: st.seen
                  emitted := st.emitted ++ [.vstr ""] } := by
      simp [handleWebhookEvent, hn1, hid1, hmem]
    refine ⟨by rw [hstep], ?_⟩
    rw [hstep]
    simp [handleWebhookEvent, hn2, hid2]

/-- Witness for C10: concrete id-less payloads from different providers
with different content; the first is emitted under identity `""` and the
second is dropped with the state unchanged. -/
theorem claim_C10_witness :
    (handleWebhookEvent sampleEnv initState (.vdict [("x", .vint 1)]) "A").emitted
        = [.vstr ""] ∧
      handleWebhookEvent sampleEnv
          (handleWebhookEvent sampleEnv initState (.vdict [("x", .vint 1)]) "A")
          (.vdict [("y", .vstr "z")]) "B" =
        handleWebhookEvent sampleEnv initState (.vdict [("x", .vint 1)]) "A" := by
  have h := claim_C10.2.2 sampleEnv initState (.vdict [("x", .vint 1)]) "A"
    (.vdict [("y", .vstr "z")]) "B" _ _ rfl rfl rfl rfl (by simp [initState])
  exact ⟨h.1, h.2⟩

/-- Processing an item whose identity is already seen leaves the state
unchanged: the duplicate is dropped. -/
theorem stepItem_drop {env : Env} {st : PipelineState} {i : Item} {x : Val}
    (h : itemId env i = .ok x) (hx : x ∈ st.seen) :
    stepItem env st i = st := by
  cases i with
  | push ed src =>
    obtain ⟨n, hn, hid⟩ := exceptMap_ok h
    simp [stepItem, handleWebhookEvent, hn, hid, hx]
  | poll e src =>
    obtain ⟨n, hn, hid⟩ := exceptMap_ok h
    simp [stepItem, handleRssEntry, hn, hid, hx]

/-- Processing an item whose identity is new marks it and emits it. -/
theorem stepItem_emit {env : Env} {st : PipelineState} {i : Item} {x : Val}
    (h : itemId env i = .ok x) (hx : x ∉ st.seen) :
    stepItem env st i =
      { st with seen := x :: st.seen, emitted := st.emitted ++ [x] } := by
  cases i with
  | push ed src =>
    obtain ⟨n, hn, hid⟩ := exceptMap_ok h
    simp [stepItem, handleWebhookEvent, hn, hid, hx]
  | poll e src =>
    obtain ⟨n, hn, hid⟩ := exceptMap_ok h
    simp [stepItem, handleRssEntry, hn, hid, hx]

/-- Claim C3: two sequentially processed items that normalize to the same
identity — push/push, push/poll, poll/push or poll/poll, in either
order — produce exactly one emission: the first adds one emission of that
identity, and the second leaves the whole state unchanged (dropped by
the dedup check, no error). -/
theorem claim_C3 (env : Env) (st0 : PipelineState) (i1 i2 : Item) (x : Val)
    (h1 : itemId env i1 = .ok x) (h2 : itemId env i2 = .ok x)
    (hx : x ∉ st0.seen) :
    (stepItem env st0 i1).emitted = st0.emitted ++ [x] ∧
      stepItem env (stepItem env st0 i1) i2 = stepItem env st0 i1 := by
  have hstep := stepItem_emit h1 hx
  refine ⟨by rw [hstep], ?_⟩
  rw [hstep]
  exact stepItem_drop h2 (by simp)

/-- Status extraction cannot raise on a record incident. -/
theorem statusOf_vdict_ok (kvs : List (String × Val)) :
    ∃ v, statusOf (.vdict kvs) = .ok v := by
  cases hl : dictLookup kvs "status" with
  | none => exact ⟨_, by simp [statusOf, pyGet, hl, isDict, Bind.bind, Except.bind] <;> rfl⟩
  | some v =>
    cases v <;>
      exact ⟨_, by simp [statusOf, pyGet, hl, isDict, Bind.bind, Except.bind] <;> rfl⟩

/-- Severity extraction cannot raise on a record incident. -/
theorem severityOf_vdict_ok (kvs : List (String × Val)) :
    ∃ v, severityOf (.vdict kvs) = .ok v := by
  cases hl : dictLookup kvs "severity" with
  | none =>
    exact ⟨_, by simp [severityOf, pyGet, hl, isDict, Bind.bind, Except.bind] <;> rfl⟩
  | some v =>
    cases v <;>
      exact ⟨_, by simp [severityOf, pyGet, hl, isDict, Bind.bind, Except.bind] <;> rfl⟩

/-- Title extraction cannot raise on a record incident. -/
theorem titleOf_vdict_ok (kvs : List (String × Val)) :
    ∃ v, titleOf (.vdict kvs) = .ok v :=
  ⟨_, by simp [titleOf, pyGet, Bind.bind, Except.bind] <;> rfl⟩

/-- Description extraction cannot raise on a record incident. -/
theorem descriptionOf_vdict_ok (kvs : List (String × Val)) :
    ∃ v, descriptionOf (.vdict kvs) = .ok v :=
  ⟨_, by simp [descriptionOf, pyGet, Bind.bind, Except.bind] <;> rfl⟩

/-- Link extraction cannot raise on a record incident. -/
theorem linkOf_vdict_ok (kvs : List (String × Val)) :
    ∃ v, linkOf (.vdict kvs) = .ok v :=
  ⟨_, by simp [linkOf, pyGet, Bind.bind, Except.bind] <;> rfl⟩

/-- The component comprehension cannot raise when every element is a
record. -/
theorem mapExcept_components_ok :
    ∀ xs : List Val, xs.all isDict = true →
      ∃ ys, mapExcept (fun comp => pyGet comp "name" (.vstr (pyStr comp))) xs
        = .ok ys := by
  intro xs
  induction xs with
  | nil => exact fun _ => ⟨[], rfl⟩
  | cons x xs ih =>
    intro h
    rw [List.all_cons, Bool.and_eq_true] at h
    obtain ⟨ys, hys⟩ := ih h.2
    cases x with
    | vdict a =>
      refine ⟨((dictLookup a "name").getD (.vstr (pyStr (.vdict a)))) :: ys, ?_⟩
      have h1 : mapExcept (fun comp => pyGet comp "name" (.vstr (pyStr comp)))
          (Val.vdict a :: xs)
          = (mapExcept (fun comp => pyGet comp "name" (.vstr (pyStr comp))) xs)
              >>= (fun zs =>
                .ok (((dictLookup a "name").getD (.vstr (pyStr (.vdict a)))) :: zs)) :=
        rfl
      rw [h1, hys]
      rfl
    | vnone => simp [isDict] at h
    | vbool b => simp [isDict] at h
    | vint n => simp [isDict] at h
    | vstr s => simp [isDict] at h
    | vlist l => simp [isDict] at h

/-- Component extraction cannot raise on a well-shaped incident record. -/
theorem componentsOf_ok (ikvs : List (String × Val))
    (h : wellShapedComponents ikvs = true) :
    ∃ ys, componentsOf (.vdict ikvs) = .ok ys := by
  unfold wellShapedComponents at h
  cases hl : dictLookup ikvs "affected_components" with
  | none => exact ⟨[], by simp [componentsOf, hl]⟩
  | some ac =>
    simp only [hl] at h
    cases hit : pyIter ac with
    | error e => exact Bool.noConfusion (by simpa only [hit] using h)
    | ok xs =>
      simp only [hit] at h
      obtain ⟨ys, hys⟩ := mapExcept_components_ok xs h
      exact ⟨ys, by simp [componentsOf, hl, hit, hys, Bind.bind, Except.bind]⟩

/-- Claim C7 counterexample: normalization is not total — a push payload
whose `data` field is the string `"x"` makes `_normalize_webhook_data`
raise (`"x".get(...)` has no such attribute), and a feed entry whose
description is the integer `5` makes `_normalize_rss_data` raise inside
`BeautifulSoup` — in both cases no record with fallback fields is
returned. -/
theorem claim_C7_counterexample :
    (∃ e, normalizeWebhookData sampleEnv (.vdict [("data", .vstr "x")]) "P"
        = .error e) ∧
      ∃ e, normalizeRssData sampleEnv (.vdict [("description", .vint 5)]) "F"
        = .error e :=
  ⟨⟨"AttributeError: object has no attribute get", rfl⟩,
    ⟨"TypeError: BeautifulSoup expected a string", rfl⟩⟩

/-- Claim C7 as amended: each normalizer is total over payloads whose
container-typed fields are well shaped — for push, the payload and its
`data`/`incident` nesting are records and the affected components, when
present, iterate to records; for poll, the entry is a record whose truthy
description text is a string. Outside those shapes normalization raises,
and the coordinator absorbs the raise at the item boundary, counting an
error and emitting nothing. -/
theorem claim_C7_amended :
    (∀ (env : Env) ed src, wellShapedWebhook ed = true →
      ∃ n, normalizeWebhookData env ed src = .ok n) ∧
    (∀ (env : Env) entry src, wellShapedRss entry = true →
      ∃ n, normalizeRssData env entry src = .ok n) ∧
    (∀ (env : Env) st ed src e, normalizeWebhookData env ed src = .error e →
      handleWebhookEvent env st ed src = { st with errors := st.errors + 1 }) ∧
    (∀ (env : Env) st entry src e, normalizeRssData env entry src = .error e →
      handleRssEntry env st entry src = { st with errors := st.errors + 1 }) := by
  refine ⟨?_, ?_, ?_, ?_⟩
  · intro env ed src h
    cases ed with
    | vdict kvs0 =>
      simp only [wellShapedWebhook] at h
      cases hdata : (dictLookup kvs0 "data").getD (.vdict kvs0) with
      | vdict dkvs =>
        simp only [hdata] at h
        cases hinc : (dictLookup dkvs "incident").getD (.vdict dkvs) with
        | vdict ikvs =>
          simp only [hinc] at h
          obtain ⟨vT, hT⟩ := titleOf_vdict_ok ikvs
          obtain ⟨vS, hS⟩ := statusOf_vdict_ok ikvs
          obtain ⟨vV, hV⟩ := severityOf_vdict_ok ikvs
          obtain ⟨vD, hD⟩ := descriptionOf_vdict_ok ikvs
          obtain ⟨vL, hL⟩ := linkOf_vdict_ok ikvs
          obtain ⟨vC, hC⟩ := componentsOf_ok ikvs h
          exact ⟨_, by simp [normalizeWebhookData, extractIncident, pyGet,
            Bind.bind, Except.bind, hdata, hinc, hT, hS, hV, hD, hL, hC] <;> rfl⟩
        | vnone => exact Bool.noConfusion (by simpa only [hinc] using h)
        | vbool b => exact Bool.noConfusion (by simpa only [hinc] using h)
        | vint n => exact Bool.noConfusion (by simpa only [hinc] using h)
        | vstr s => exact Bool.noConfusion (by simpa only [hinc] using h)
        | vlist xs => exact Bool.noConfusion (by simpa only [hinc] using h)
      | vnone => exact Bool.noConfusion (by simpa only [hdata] using h)
      | vbool b => exact Bool.noConfusion (by simpa only [hdata] using h)
      | vint n => exact Bool.noConfusion (by simpa only [hdata] using h)
      | vstr s => exact Bool.noConfusion (by simpa only [hdata] using h)
      | vlist xs => exact Bool.noConfusion (by simpa only [hdata] using h)
    | vnone => simp [wellShapedWebhook] at h
    | vbool b => simp [wellShapedWebhook] at h
    | vint n => simp [wellShapedWebhook] at h
    | vstr s => simp [wellShapedWebhook] at h
    | vlist xs => simp [wellShapedWebhook] at h
  · intro env entry src h
    cases entry with
    | vdict kvs =>
      simp only [wellShapedRss] at h
      by_cases htr : pyTruthy ((dictLookup kvs "description").getD
          ((dictLookup kvs "summary").getD (.vstr ""))) = true
      · simp only [htr, Bool.not_true, Bool.false_or] at h
        cases hdesc : (dictLookup kvs "description").getD
            ((dictLookup kvs "summary").getD (.vstr "")) with
        | vstr s =>
          rw [hdesc] at htr
          by_cases hri : pyTruthy ((dictLookup kvs "id").getD
              ((dictLookup kvs "guid").getD (.vstr ""))) = true
          · exact ⟨_, by simp [normalizeRssData, pyGet, Bind.bind, Except.bind,
              hdesc, htr, hri] <;> rfl⟩
          · exact ⟨_, by simp [normalizeRssData, pyGet, Bind.bind, Except.bind,
              hdesc, htr, hri] <;> rfl⟩
        | vnone => rw [hdesc] at h; simp [isStr] at h
        | vbool b => rw [hdesc] at h; simp [isStr] at h
        | vint n => rw [hdesc] at h; simp [isStr] at h
        | vlist xs => rw [hdesc] at h; simp [isStr] at h
        | vdict d => rw [hdesc] at h; simp [isStr] at h
      · have htr' : pyTruthy ((dictLookup kvs "description").getD
            ((dictLookup kvs "summary").getD (.vstr ""))) = false :=
          Bool.not_eq_true _ ▸ by simpa using htr
        by_cases hri : pyTruthy ((dictLookup kvs "id").getD
            ((dictLookup kvs "guid").getD (.vstr ""))) = true
        · exact ⟨_, by simp [normalizeRssData, pyGet, Bind.bind, Except.bind,
            htr', hri] <;> rfl⟩
        · exact ⟨_, by simp [normalizeRssData, pyGet, Bind.bind, Except.bind,
            htr', hri] <;> rfl⟩
    | vnone => simp [wellShapedRss] at h
    | vbool b => simp [wellShapedRss] at h
    | vint n => simp [wellShapedRss] at h
    | vstr s => simp [wellShapedRss] at h
    | vlist xs => simp [wellShapedRss] at h
  · intro env st ed src e h
    simp [handleWebhookEvent, h]
  · intro env st entry src e h
    simp [handleRssEntry, h]

/-- Witness for the amended C7: the specification's example payload is
well shaped and normalizes successfully; the empty feed entry is well
shaped and normalizes successfully; a raising payload is absorbed as one
counted error. -/
theorem claim_C7_witness :
    (wellShapedWebhook samplePayload = true ∧
      ∃ n, normalizeWebhookData sampleEnv samplePayload "incident.io" = .ok n) ∧
    (wellShapedRss (.vdict []) = true ∧
      ∃ n, normalizeRssData sampleEnv (.vdict []) "F" = .ok n) ∧
    handleWebhookEvent sampleEnv initState (.vdict [("data", .vstr "x")]) "P"
      = { initState with errors := initState.errors + 1 } :=
  ⟨⟨rfl, claim_C7_amended.1 sampleEnv samplePayload "incident.io" rfl⟩,
    ⟨rfl, claim_C7_amended.2.1 sampleEnv (.vdict []) "F" rfl⟩,
    claim_C7_amended.2.2.1 sampleEnv initState (.vdict [("data", .vstr "x")]) "P"
      "AttributeError: object has no attribute get" rfl⟩

/-- The leftmost vocabulary scan returns nothing when no position
matches. -/
theorem vocabSearch_none (cs : List Char)
    (h : ∀ i, vocabMatchAt (cs.drop i) = none) : vocabSearch cs = none := by
  induction cs with
  | nil => rfl
  | cons c cs ih =>
    have h0 : vocabMatchAt (c :: cs) = none := h 0
    simp only [vocabSearch, h0]
    exact ih (fun i => h (i + 1))

/-- A silent vocabulary scan means no position matches. -/
theorem vocabMatchAt_none_of_search {cs : List Char}
    (h : vocabSearch cs = none) : ∀ i, vocabMatchAt (cs.drop i) = none := by
  induction cs with
  | nil => intro i; rw [List.drop_nil]; rfl
  | cons c cs ih =>
    intro i
    cases hm : vocabMatchAt (c :: cs) with
    | some w =>
      rw [vocabSearch, hm] at h
      exact Option.noConfusion h
    | none =>
      have h' : vocabSearch cs = none := by
        rw [vocabSearch, hm] at h
        exact h
      cases i with
      | zero => exact hm
      | succ i => exact ih h' i

/-- The leftmost `status:` scan returns nothing when no position
matches. -/
theorem statusSearch_none (cs : List Char)
    (h : ∀ i, statusMatchAt (cs.drop i) = none) : statusSearch cs = none := by
  induction cs with
  | nil => rfl
  | cons c cs ih =>
    have h0 : statusMatchAt (c :: cs) = none := h 0
    simp only [statusSearch, h0]
    exact ih (fun i => h (i + 1))

/-- A silent `status:` scan means no position matches. -/
theorem statusMatchAt_none_of_search {cs : List Char}
    (h : statusSearch cs = none) : ∀ i, statusMatchAt (cs.drop i) = none := by
  induction cs with
  | nil => intro i; rw [List.drop_nil]; rfl
  | cons c cs ih =>
    intro i
    cases hm : statusMatchAt (c :: cs) with
    | some w =>
      rw [statusSearch, hm] at h
      exact Option.noConfusion h
    | none =>
      have h' : statusSearch cs = none := by
        rw [statusSearch, hm] at h
        exact h
      cases i with
      | zero => exact hm
      | succ i => exact ih h' i

/-- No vocabulary occurrence anywhere in the text silences the
vocabulary scan. -/
theorem vocabSearch_of_not_occurs {s : String} (h : vocabOccursB s = false) :
    vocabSearch s.toList = none := by
  apply vocabSearch_none
  intro i
  by_cases hi : i < s.toList.length + 1
  · rw [vocabOccursB, List.any_eq_false] at h
    have h2 := h i (List.mem_range.mpr hi)
    rw [Bool.not_eq_true, List.any_eq_false] at h2
    rw [vocabMatchAt]
    exact List.find?_eq_none.mpr h2
  · rw [List.drop_eq_nil_of_le (by omega)]
    rfl

/-- No pattern occurrence anywhere in the text silences the `status:`
scan. -/
theorem statusSearch_of_not_occurs {s : String} (h : statusOccursB s = false) :
    statusSearch s.toList = none := by
  apply statusSearch_none
  intro i
  by_cases hi : i < s.toList.length + 1
  · rw [statusOccursB, List.any_eq_false] at h
    have h2 := h i (List.mem_range.mpr hi)
    simpa using h2
  · rw [List.drop_eq_nil_of_le (by omega)]
    rfl

/-- A vocabulary occurrence somewhere in the text makes the scan find a
match. -/
theorem vocabSearch_of_occurs {s : String} (h : vocabOccursB s = true) :
    ∃ m, vocabSearch s.toList = some m := by
  cases hs : vocabSearch s.toList with
  | some m => exact ⟨m, rfl⟩
  | none =>
    exfalso
    rw [vocabOccursB, List.any_eq_true] at h
    obtain ⟨i, _, hin⟩ := h
    rw [List.any_eq_true] at hin
    obtain ⟨w, hw, hp⟩ := hin
    have hnone := vocabMatchAt_none_of_search hs i
    rw [vocabMatchAt, List.find?_eq_none] at hnone
    exact hnone w hw hp

/-- A pattern occurrence somewhere in the text makes the scan find a
match. -/
theorem statusSearch_of_occurs {s : String} (h : statusOccursB s = true) :
    ∃ t, statusSearch s.toList = some t := by
  cases hs : statusSearch s.toList with
  | some t => exact ⟨t, rfl⟩
  | none =>
    exfalso
    rw [statusOccursB, List.any_eq_true] at h
    obtain ⟨i, _, hin⟩ := h
    have hnone := statusMatchAt_none_of_search hs i
    rw [hnone] at hin
    exact Option.noConfusion (Option.isSome_iff_exists.mp hin).choose_spec

/-- The vocabulary scan's match is one of the vocabulary words,
case-insensitively: its lower-casing is the found word's characters. -/
theorem vocabSearch_some_spec :
    ∀ (cs m : List Char), vocabSearch cs = some m →
      ∃ w ∈ vocabWords, lowerChars m = w.toList := by
  intro cs
  induction cs with
  | nil => intro m h; exact Option.noConfusion h
  | cons c cs ih =>
    intro m h
    cases hm : vocabMatchAt (c :: cs) with
    | some w =>
      rw [vocabSearch, hm] at h
      injection h with h
      subst h
      rw [vocabMatchAt] at hm
      have hw : w ∈ vocabWords := List.mem_of_find?_eq_some hm
      have hp : w.toList.isPrefixOf (lowerChars (c :: cs)) = true := by
        simpa using List.find?_some hm
      have hpre : w.toList <+: lowerChars (c :: cs) :=
        List.isPrefixOf_iff_prefix.mp hp
      refine ⟨w, hw, ?_⟩
      rw [lowerChars, List.map_take]
      exact (List.prefix_iff_eq_take.mp hpre).symm
    | none =>
      rw [vocabSearch, hm] at h
      exact ih m h

/-- Claim C8: poll-origin status inference tries the fixed vocabulary
first (case-insensitive, leftmost match, title-cased), falls back to the
`status:` pattern only when no vocabulary word occurs, and yields
`"Unknown"` only when neither matches; `"Status: Degraded"` infers
`"Degraded"` and a bare `"Resolved"` infers `"Resolved"`. -/
theorem claim_C8 :
    inferStatus "Status: Degraded" = "Degraded" ∧
    inferStatus "Resolved" = "Resolved" ∧
    (∀ s, vocabOccursB s = false → statusOccursB s = false →
      inferStatus s = "Unknown") ∧
    (∀ s, vocabOccursB s = false → statusOccursB s = true →
      ∃ t, statusSearch s.toList = some t ∧
        inferStatus s = pyTitle (String.mk t)) ∧
    (∀ s, vocabOccursB s = true →
      ∃ m, vocabSearch s.toList = some m ∧
        inferStatus s = pyTitle (String.mk m) ∧
        String.mk (lowerChars m) ∈ vocabWords) := by
  refine ⟨by decide, by decide, ?_, ?_, ?_⟩
  · intro s h1 h2
    rw [inferStatus, vocabSearch_of_not_occurs h1, statusSearch_of_not_occurs h2]
  · intro s h1 h2
    obtain ⟨t, ht⟩ := statusSearch_of_occurs h2
    refine ⟨t, ht, ?_⟩
    rw [inferStatus, vocabSearch_of_not_occurs h1, ht]
  · intro s h1
    obtain ⟨m, hm⟩ := vocabSearch_of_occurs h1
    obtain ⟨w, hw, hlow⟩ := vocabSearch_some_spec s.toList m hm
    refine ⟨m, hm, by rw [inferStatus, hm], ?_⟩
    rw [hlow]
    exact hw

/-- Witness for C8: a text with no vocabulary word and no pattern stays
`"Unknown"`; a pattern-only text uses the captured token; an upper-case
vocabulary occurrence is found and title-cased. -/
theorem claim_C8_witness :
    inferStatus "all well" = "Unknown" ∧
    (∃ t, statusSearch "well: status: waiting".toList = some t ∧
      inferStatus "well: status: waiting" = pyTitle (String.mk t)) ∧
    (∃ m, vocabSearch "DEGRADED now".toList = some m ∧
      inferStatus "DEGRADED now" = pyTitle (String.mk m) ∧
      String.mk (lowerChars m) ∈ vocabWords) :=
  ⟨claim_C8.2.2.1 "all well" (by decide) (by decide),
    claim_C8.2.2.2.1 "well: status: waiting" (by decide) (by decide),
    claim_C8.2.2.2.2 "DEGRADED now" (by decide)⟩

/-- Claim C9 counterexample: two concurrent ingestions of the same
identity, interleaved so that both run their `is_seen` section before
either runs `mark_seen` (schedule 0,1,0,1), both pass the check and both
emit — 2 emissions and 0 drops where the claim requires exactly 1
emission and 1 drop. The race exists because the membership test and the
insertion are two separately locked critical sections, not one atomic
region. -/
theorem claim_C9_counterexample :
    (runSchedule (initConc 2 "a") [0, 1, 0, 1]).emissions = 2 ∧
      (runSchedule (initConc 2 "a") [0, 1, 0, 1]).drops = 0 := by
  decide

/-- Serial pair schedules over pending tasks of an already-seen identity
only accumulate drops: each task's check hits and the task drops,
leaving the dedup set and the emission count unchanged. -/
theorem runSerial_drops :
    ∀ (k j : Nat) (cs : ConcState) (x : String), x ∈ cs.seen →
      (∀ m, m < k → ∃ t, cs.tasks[j + m]? = some t ∧ t.pc = 0 ∧ t.tid = x) →
      (runSchedule cs (serialFrom j k)).emissions = cs.emissions ∧
        (runSchedule cs (serialFrom j k)).drops = cs.drops + k ∧
        (runSchedule cs (serialFrom j k)).seen = cs.seen := by
  intro k
  induction k with
  | zero =>
    intro j cs x hx h
    exact ⟨rfl, rfl, rfl⟩
  | succ k ih =>
    intro j cs x hx h
    obtain ⟨t, ht, hpc, htid⟩ := h 0 (Nat.succ_pos k)
    rw [Nat.add_zero] at ht
    have hlen : j < cs.tasks.length := by
      rw [List.getElem?_eq_some] at ht
      exact ht.1
    have hdec : decide (t.tid ∈ cs.seen) = true := by
      rw [htid]
      exact decide_eq_true hx
    have hstep1 : stepAt cs j =
        ⟨cs.seen, cs.emissions, cs.drops, cs.tasks.set j ⟨t.tid, 1, true⟩⟩ := by
      simp [stepAt, ht, hpc, hdec]
    have hget1 : (cs.tasks.set j ⟨t.tid, 1, true⟩)[j]? = some ⟨t.tid, 1, true⟩ :=
      List.getElem?_set_self hlen
    have hstep2 : stepAt (stepAt cs j) j =
        ⟨cs.seen, cs.emissions, cs.drops + 1,
          (cs.tasks.set j ⟨t.tid, 1, true⟩).set j ⟨t.tid, 2, true⟩⟩ := by
      rw [hstep1]
      simp [stepAt, hget1]
    have hrun : runSchedule cs (serialFrom j (k + 1))
        = runSchedule (stepAt (stepAt cs j) j) (serialFrom (j + 1) k) := rfl
    rw [hrun, hstep2]
    have hcond : ∀ m, m < k →
        ∃ t', ((cs.tasks.set j ⟨t.tid, 1, true⟩).set j ⟨t.tid, 2, true⟩)[(j + 1) + m]?
          = some t' ∧ t'.pc = 0 ∧ t'.tid = x := by
      intro m hm
      obtain ⟨t', ht', hpc', htid'⟩ := h (m + 1) (by omega)
      refine ⟨t', ?_, hpc', htid'⟩
      rw [List.getElem?_set_ne (by omega), List.getElem?_set_ne (by omega)]
      rw [show j + 1 + m = j + (m + 1) from by omega]
      exact ht'
    obtain ⟨he, hd, hs⟩ := ih (j + 1)
      ⟨cs.seen, cs.emissions, cs.drops + 1,
        (cs.tasks.set j ⟨t.tid, 1, true⟩).set j ⟨t.tid, 2, true⟩⟩ x hx hcond
    refine ⟨he, ?_, hs⟩
    rw [hd]
    show cs.drops + 1 + k = cs.drops + (k + 1)
    omega

/-- Claim C9 as amended: `is_seen` and `mark_seen` are two independently
locked critical sections, so an interleaving of two same-identity items
between check and mark emits both (see the counterexample); when the
schedule runs each item's check-then-mark to completion before the next
item starts (any serial schedule), N ≥ 1 same-identity items yield
exactly 1 emission and N − 1 drops. -/
theorem claim_C9_theorem (n : Nat) (x : String) (hn : 1 ≤ n) :
    (runSchedule (initConc n x) (serialSchedule n)).emissions = 1 ∧
      (runSchedule (initConc n x) (serialSchedule n)).drops = n - 1 := by
  obtain ⟨k, rfl⟩ : ∃ k, n = k + 1 := ⟨n - 1, by omega⟩
  have h0 : (List.replicate (k + 1) (⟨x, 0, false⟩ : ConcTask))[0]?
      = some ⟨x, 0, false⟩ := List.getElem?_replicate_of_lt (Nat.succ_pos k)
  have htasks : (List.replicate (k + 1) (⟨x, 0, false⟩ : ConcTask)).set 0
      ⟨x, 1, false⟩ = ⟨x, 1, false⟩ :: List.replicate k ⟨x, 0, false⟩ := by
    rw [List.replicate_succ]
    rfl
  have hstepA : stepAt (initConc (k + 1) x) 0
      = ⟨[], 0, 0, (⟨x, 1, false⟩ : ConcTask) :: List.replicate k ⟨x, 0, false⟩⟩ := by
    simp [stepAt, initConc, h0, htasks]
  have hstepB : stepAt
      (⟨[], 0, 0, (⟨x, 1, false⟩ : ConcTask) :: List.replicate k ⟨x, 0, false⟩⟩ :
        ConcState) 0
      = ⟨[x], 1, 0, (⟨x, 2, false⟩ : ConcTask) :: List.replicate k ⟨x, 0, false⟩⟩ := by
    simp [stepAt]
  have hrun : runSchedule (initConc (k + 1) x) (serialSchedule (k + 1))
      = runSchedule (stepAt (stepAt (initConc (k + 1) x) 0) 0)
          (serialFrom 1 k) := rfl
  rw [hrun, hstepA, hstepB]
  have hcond : ∀ m, m < k →
      ∃ t, ((⟨x, 2, false⟩ : ConcTask) ::
          List.replicate k (⟨x, 0, false⟩ : ConcTask))[1 + m]?
        = some t ∧ t.pc = 0 ∧ t.tid = x := by
    intro m hm
    refine ⟨⟨x, 0, false⟩, ?_, rfl, rfl⟩
    rw [show 1 + m = m + 1 from by omega, List.getElem?_cons_succ]
    exact List.getElem?_replicate_of_lt hm
  obtain ⟨he, hd, _⟩ := runSerial_drops k 1
    ⟨[x], 1, 0, (⟨x, 2, false⟩ : ConcTask) :: List.replicate k ⟨x, 0, false⟩⟩ x
    (by simp) hcond
  refine ⟨he, ?_⟩
  rw [hd]
  show 0 + k = k + 1 - 1
  omega

/-- Claim C1: the code violates it. Both webhook endpoints read the
signature headers into unused locals and never call
`verify_svix_signature` or `verify_hmac_signature`: the endpoint result
is independent of the headers entirely, and a payload carrying no
signature at all is acknowledged with 200, enqueued, normalized and
emitted — never dropped before normalization as the claim requires. -/
theorem claim_C1_theorem :
    (∀ (h1 h2 : List (String × String)) (body : Option Val),
      receive_incident_io_webhook ⟨h1, body⟩
        = receive_incident_io_webhook ⟨h2, body⟩) ∧
    (∀ (pn : String) (h1 h2 : List (String × String)) (body : Option Val),
      receive_generic_webhook pn ⟨h1, body⟩
        = receive_generic_webhook pn ⟨h2, body⟩) ∧
    (receive_incident_io_webhook ⟨[], some samplePayload⟩).statusCode = 200 ∧
    (runTasks sampleEnv initState
        (receive_incident_io_webhook ⟨[], some samplePayload⟩).tasks).emitted
      = [.vstr "abc"] := by
  refine ⟨?_, ?_, rfl, rfl⟩
  · intro h1 h2 body
    cases body <;> rfl
  · intro pn h1 h2 body
    cases body <;> rfl

/-- Witness for the amended C9 at three concurrent same-id items run
serially: one emission and two drops. -/
theorem claim_C9_witness :
    (runSchedule (initConc 3 "a") (serialSchedule 3)).emissions = 1 ∧
      (runSchedule (initConc 3 "a") (serialSchedule 3)).drops = 2 :=
  claim_C9_theorem 3 "a" (by decide)

/-- Witness for C3: a push payload and a poll entry sharing id `a`; the
push is emitted, the poll entry is dropped. -/
theorem claim_C3_witness :
    (stepItem sampleEnv initState (.push (.vdict [("id", .vstr "a")]) "P")).emitted
        = [.vstr "a"] ∧
      stepItem sampleEnv
          (stepItem sampleEnv initState (.push (.vdict [("id", .vstr "a")]) "P"))
          (.poll (.vdict [("id", .vstr "a")]) "F") =
        stepItem sampleEnv initState (.push (.vdict [("id", .vstr "a")]) "P") := by
  have h := claim_C3 sampleEnv initState (.push (.vdict [("id", .vstr "a")]) "P")
    (.poll (.vdict [("id", .vstr "a")]) "F") (.vstr "a") rfl rfl (by simp [initState])
  exact ⟨h.1, h.2⟩

end StatusMonitor
